import Mathlib

/-!
Shallow embedding of the client-side background resource-lifecycle manager
(ActivityTracker, MessageCache, the query-selector cache in useMessages,
RoomPreserver, FullResetMemoryCleanup and SimpleBackgroundRefreshManager).

JavaScript `Map` objects are modelled as insertion-ordered association lists
with the operations below; `Map` keys are unique by construction, `set` on an
existing key keeps its position, `set` on a fresh key appends, `delete`
removes the entry, and iteration order is list order.  Timestamps
(`Date.now()`) are `Nat`; `setTimeout` handles are modelled as the absolute
time at which the pending callback fires.
-/

/-- `Map.prototype.get`. -/
def mapLookup {α : Type} : List (String × α) → String → Option α
  | [], _ => none
  | (k', v') :: t, k => if k' = k then some v' else mapLookup t k

/-- `Map.prototype.set`: replace in place when the key is present, append
otherwise. -/
def mapSet {α : Type} : List (String × α) → String → α → List (String × α)
  | [], k, v => [(k, v)]
  | (k', v') :: t, k, v => if k' = k then (k, v) :: t else (k', v') :: mapSet t k v

/-- `Map.prototype.delete`: remove the (first, hence with unique keys the
only) entry with the given key. -/
def eraseKey {α : Type} : List (String × α) → String → List (String × α)
  | [], _ => []
  | (k', v') :: t, k => if k' = k then t else (k', v') :: eraseKey t k

/-- Does `l` start with `p` (character-wise)? Helper for the substring test. -/
def startsWithChars : List Char → List Char → Bool
  | _, [] => true
  | [], _ :: _ => false
  | a :: as, b :: bs => a = b && startsWithChars as bs

/-- Does `l` contain `p` as a contiguous run? Helper for the substring test. -/
def hasSubChars : List Char → List Char → Bool
  | l, p => if startsWithChars l p then true else
      match l with
      | [] => false
      | _ :: t => hasSubChars t p

/-- JavaScript `String.prototype.includes`: substring containment. -/
def strIncludes (s sub : String) : Bool :=
  hasSubChars s.data sub.data

/-! ## MessageCache (src/apps/meteor/client/lib/chats/MessageCache.ts)

Message payloads are abstracted as `List Nat` (lists of message identifiers);
none of the cache logic inspects the payload. -/

/-- A `CacheEntry` of MessageCache.ts: `timestamp` is the creation time used
for the TTL check, `lastFetch` the last-access time used for LRU eviction. -/
structure CacheEntry where
  messages : List Nat
  timestamp : Nat
  lastFetch : Nat
  query : String
deriving DecidableEq

/-- The `CacheStats` counters of MessageCache.ts. -/
structure CacheStats where
  hits : Nat
  misses : Nat
  evictions : Nat
deriving DecidableEq

/-- The `MessageCache` class state: the `Map`, the construction-time bounds
and the stats counters. -/
structure MessageCache where
  cache : List (String × CacheEntry)
  maxSize : Nat
  ttl : Nat
  stats : CacheStats
deriving DecidableEq

/-- `new MessageCache(maxSize, ttl)`. -/
def MessageCache.mk0 (maxSize ttl : Nat) : MessageCache :=
  ⟨[], maxSize, ttl, ⟨0, 0, 0⟩⟩

/-- `getStats().size`. -/
def MessageCache.size (c : MessageCache) : Nat :=
  c.cache.length

/-- `MessageCache.get(cacheKey)` at time `now`.  Absent key: count a miss.
Present but `now - entry.timestamp > ttl`: delete the entry and count a miss.
Otherwise set `entry.lastFetch = now`, delete and re-insert the entry (moving
it to the most-recent end of the `Map`), count a hit and return the messages.
(`Nat` subtraction truncates at zero exactly where the JS difference would be
negative, and a negative difference is never `> ttl` either.) -/
def MessageCache.get (c : MessageCache) (key : String) (now : Nat) :
    Option (List Nat) × MessageCache :=
  match mapLookup c.cache key with
  | none => (none, { c with stats := { c.stats with misses := c.stats.misses + 1 } })
  | some entry =>
      if c.ttl < now - entry.timestamp then
        (none, { c with cache := eraseKey c.cache key,
                        stats := { c.stats with misses := c.stats.misses + 1 } })
      else
        (some entry.messages,
         { c with cache := eraseKey c.cache key ++ [(key, { entry with lastFetch := now })],
                  stats := { c.stats with hits := c.stats.hits + 1 } })

/-- The scan of `evictLRU`: fold over the entries keeping `(oldestKey,
oldestTime)`, starting from `('', Date.now())`, replacing the accumulator only
on a strictly smaller `lastFetch`. -/
def lruScan : String × Nat → List (String × CacheEntry) → String × Nat
  | acc, [] => acc
  | acc, p :: rest =>
      lruScan (if p.2.lastFetch < acc.2 then (p.1, p.2.lastFetch) else acc) rest

/-- `MessageCache.evictLRU()` at time `now`: scan for the entry with the
smallest `lastFetch` strictly below `now`; if the resulting `oldestKey` is
truthy (a nonempty string), delete it and increment `evictions`, otherwise do
nothing. -/
def MessageCache.evictLRU (c : MessageCache) (now : Nat) : MessageCache :=
  let r := lruScan ("", now) c.cache
  if r.1 = "" then c
  else { c with cache := eraseKey c.cache r.1,
                stats := { c.stats with evictions := c.stats.evictions + 1 } }

/-- `MessageCache.set(cacheKey, messages, query)` at time `now`: when
`size >= maxSize` run `evictLRU` first (whether or not the key is already
present), then `Map.set` the new entry with
`timestamp = lastFetch = now`. -/
def MessageCache.set (c : MessageCache) (key : String) (messages : List Nat)
    (query : String) (now : Nat) : MessageCache :=
  let c1 := if c.maxSize ≤ c.cache.length then c.evictLRU now else c
  { c1 with cache := mapSet c1.cache key ⟨messages, now, now, query⟩ }

/-- The body of the `for..of` loop in `MessageCache.invalidateRoom(rid)`:
delete every entry whose key contains `rid` as a substring (deleting the
current key during `Map` iteration is safe and does not affect the remaining
entries). -/
def invalidateLoop : List (String × CacheEntry) → String → List (String × CacheEntry)
  | [], _ => []
  | (k, e) :: t, rid =>
      if strIncludes k rid then invalidateLoop t rid
      else (k, e) :: invalidateLoop t rid

/-- `MessageCache.invalidateRoom(rid)`. -/
def MessageCache.invalidateRoom (c : MessageCache) (rid : String) : MessageCache :=
  { c with cache := invalidateLoop c.cache rid }

/-! ## Query-selector cache
(`useMessages` in
src/apps/meteor/client/views/room/MessageList/hooks/useMessageCacheInvalidation.ts) -/

/-- The inputs of the `query` memo in `useMessages`: room id, merged
hidden-system-message types, and the `showThreadsInMainChannel`
preference. -/
structure QueryInput where
  rid : String
  hideSysMessages : List String
  showThreads : Bool
deriving DecidableEq

/-- The `cacheKey` fingerprint
`` `${rid}-${JSON.stringify(hideSysMessages)}-${showThreadsInMainChannel}` ``
(the JSON serialization of the string array is abstracted as a
comma-intercalation; only determinism in the three inputs matters here). -/
def queryCacheKey (i : QueryInput) : String :=
  i.rid ++ "-" ++ String.intercalate "," i.hideSysMessages ++ "-" ++
    (if i.showThreads then "true" else "false")

/-- The Mongo selector object built on a cache miss: `rid`,
`_hidden: $ne true`, `t: $nin hideSysMessages`, and the thread `$or` clause
present exactly when `showThreadsInMainChannel` is off. -/
structure MsgQuery where
  rid : String
  hiddenNe : Bool
  tNin : List String
  orThreadClause : Bool
deriving DecidableEq

/-- The selector computation performed on a query-cache miss. -/
def computeQuery (i : QueryInput) : MsgQuery :=
  ⟨i.rid, true, i.hideSysMessages, !i.showThreads⟩

/-- The body of the `query` memo in `useMessages`: look the fingerprint up in
the module-level `queryCache` `Map`; on a hit return the cached selector
without recomputing; on a miss compute the selector, `Map.set` it, and if the
size then exceeds 100 delete the first key in iteration order
(`queryCache.keys().next().value`).  Result: (selector, cache after, whether
the selector was recomputed). -/
def queryLookup (qc : List (String × MsgQuery)) (i : QueryInput) :
    MsgQuery × List (String × MsgQuery) × Bool :=
  let key := queryCacheKey i
  match mapLookup qc key with
  | some cached => (cached, qc, false)
  | none =>
      let newQuery := computeQuery i
      let qc1 := mapSet qc key newQuery
      let qc2 :=
        if 100 < qc1.length then
          match qc1 with
          | [] => qc1
          | p :: _ => eraseKey qc1 p.1
        else qc1
      (newQuery, qc2, true)

/-- The query cache after a sequence of `useMessages` renders, starting from
the empty module-level `Map`. -/
def runQueries (l : List QueryInput) : List (String × MsgQuery) :=
  l.foldl (fun qc i => (queryLookup qc i).2.1) []

/-! ## ActivityTracker
(src/apps/meteor/client/lib/backgroundRefresh/ActivityTracker.ts)

The tracker is modelled as an explicit state machine.  `inactiveTimer` holds
the absolute time at which the single pending `setTimeout` callback fires
(`none` after it has fired); `clearTimeout` followed by `setTimeout` is
modelled by overwriting that field. -/

/-- The mutable fields of the `ActivityTracker` class. -/
structure ATState where
  isUserActive : Bool
  lastActivity : Nat
  inactiveTime : Nat
  inactiveTimer : Option Nat
deriving DecidableEq

/-- The events the tracker emits. -/
inductive ATEmit where
  | active
  | inactive
deriving DecidableEq

/-- External stimuli delivered to the tracker, each carrying the value of
`Date.now()` at delivery:
* `activity now` — any qualifying activity signal (the six DOM input events,
  `window` focus, or the tab becoming visible), all of which run `onActivity`;
* `visibilityHidden now` — `visibilitychange` with `document.hidden`;
* `blurCheck now` — the deferred check scheduled 1000 ms after a `blur`;
* `timerFire now` — the pending inactivity `setTimeout` fires (only the
  currently scheduled timer can fire, at exactly its scheduled time);
* `updateInactiveTime now time` — the public `updateInactiveTime(time)`. -/
inductive ATEvent where
  | activity (now : Nat)
  | visibilityHidden (now : Nat)
  | blurCheck (now : Nat)
  | timerFire (now : Nat)
  | updateInactiveTime (now : Nat) (time : Nat)
deriving DecidableEq

/-- `resetActivityTracking()` at time `now`: clear any pending timer and
schedule a new one `inactiveTime` from now. -/
def ActivityTracker.resetActivityTracking (now : Nat) (s : ATState) : ATState :=
  { s with inactiveTimer := some (now + s.inactiveTime) }

/-- `onUserInactive()`: return early when already inactive, otherwise flip to
inactive and emit `inactive`. -/
def ActivityTracker.onUserInactive (s : ATState) : ATState × List ATEmit :=
  if s.isUserActive then ({ s with isUserActive := false }, [ATEmit.inactive])
  else (s, [])

/-- `onActivity()` at time `now`: record `lastActivity = now`; only when the
state was inactive, flip to active, reschedule the timer and emit `active`
(while already active the pending timer is left untouched). -/
def ActivityTracker.onActivity (now : Nat) (s : ATState) : ATState × List ATEmit :=
  let s1 := { s with lastActivity := now }
  if s1.isUserActive then (s1, [])
  else
    (ActivityTracker.resetActivityTracking now { s1 with isUserActive := true },
     [ATEmit.active])

/-- One stimulus delivered to the tracker. -/
def ActivityTracker.step (s : ATState) (e : ATEvent) : ATState × List ATEmit :=
  match e with
  | ATEvent.activity now => ActivityTracker.onActivity now s
  | ATEvent.visibilityHidden _ => ActivityTracker.onUserInactive s
  | ATEvent.blurCheck now =>
      if 1000 < now - s.lastActivity then ActivityTracker.onUserInactive s
      else (s, [])
  | ATEvent.timerFire now =>
      match s.inactiveTimer with
      | some t =>
          if t = now then ActivityTracker.onUserInactive { s with inactiveTimer := none }
          else (s, [])
      | none => (s, [])
  | ATEvent.updateInactiveTime now t =>
      (ActivityTracker.resetActivityTracking now { s with inactiveTime := t }, [])

/-- Deliver a sequence of stimuli, concatenating the emissions. -/
def ActivityTracker.run (s : ATState) : List ATEvent → ATState × List ATEmit
  | [] => (s, [])
  | e :: es =>
      let r := ActivityTracker.step s e
      let r2 := ActivityTracker.run r.1 es
      (r2.1, r.2 ++ r2.2)

/-- `new ActivityTracker(inactiveTime)` constructed at time `now0`:
`isUserActive = true`, `lastActivity = Date.now()`, then
`resetActivityTracking()`. -/
def ActivityTracker.init (now0 inactiveTime : Nat) : ATState :=
  ActivityTracker.resetActivityTracking now0
    { isUserActive := true, lastActivity := now0,
      inactiveTime := inactiveTime, inactiveTimer := none }

/-- Emission traces that strictly alternate between `inactive` and `active`,
starting with the transition out of the state given by the flag (`true` =
currently Active, so the next possible emission is `inactive`). -/
def altOk : Bool → List ATEmit → Prop
  | _, [] => True
  | b, e :: rest => e = (if b then ATEmit.inactive else ATEmit.active) ∧ altOk (!b) rest

/-! ## Cleanup orchestrator
(SimpleBackgroundRefreshManager.performRefresh in
src/apps/meteor/client/lib/backgroundRefresh/MessageSystemResetManager.ts and
FullResetMemoryCleanup in
src/apps/meteor/client/lib/backgroundRefresh/FullResetMemoryCleanup.ts)

A cleanup pass is modelled by the ordered list of observable actions it
performs.  The vocabulary includes the snapshot capture/restore requests
(`RoomPreserver.preserve`/`restore`, `MessageSystemResetManager`
backup/restore) so that their absence from a pass is expressible; the
emergency-disabled `performFullReset` never issues them. -/

/-- Observable actions of one cleanup pass. -/
inductive CleanupAction where
  | emitStarted
  | emitCompleted
  | snapshotCapture
  | snapshotRestore
  | stepVideoConf
  | stepVoIP
  | stepDOM
  | stepMicrotasks
  | logWarn
deriving DecidableEq

/-- Fault injection: whether each collaborator call made by the four safe
cleanup steps throws. -/
structure StepFailures where
  videoConf : Bool
  voip : Bool
  dom : Bool
  microtasks : Bool
deriving DecidableEq

/-- One `safeCleanupX` method: a try/catch around a single collaborator call.
The call is always attempted (its action recorded); when it throws, the
handler logs a warning; the wrapper itself never propagates the error. -/
def guardedStep (a : CleanupAction) (throws : Bool) : List CleanupAction :=
  if throws then [a, CleanupAction.logWarn] else [a]

/-- `FullResetMemoryCleanup.performSafeCleanup()`: the four guarded steps in
declared order (VideoConf, VoIP, DOM, microtasks), each awaited before the
next; the surrounding try/catch never fires because no step propagates. -/
def FullResetMemoryCleanup.performSafeCleanup (fs : StepFailures) : List CleanupAction :=
  guardedStep CleanupAction.stepVideoConf fs.videoConf ++
  guardedStep CleanupAction.stepVoIP fs.voip ++
  guardedStep CleanupAction.stepDOM fs.dom ++
  guardedStep CleanupAction.stepMicrotasks fs.microtasks

/-- `FullResetMemoryCleanup.performFullReset(preserveCurrentRoom)`: the full
reset is emergency-disabled — the method warns about the disablement and
falls back to `performSafeCleanup()` only.  Its `preserveCurrentRoom`
argument is never consulted; no snapshot capture/restore is requested.  The
second component is the error it propagates (always `none`). -/
def FullResetMemoryCleanup.performFullReset (_preserveCurrentRoom : Bool)
    (fs : StepFailures) : List CleanupAction × Option Unit :=
  (FullResetMemoryCleanup.performSafeCleanup fs, none)

/-- `SimpleBackgroundRefreshManager.performRefresh()`: emit
`refresh/started`, await `performFullReset(config.preserveCurrentRoom)`, then
emit `refresh/completed`; a propagated error is caught and logged instead of
emitting `refresh/completed`. -/
def SimpleBackgroundRefreshManager.performRefresh (preserveCurrentRoom : Bool)
    (fs : StepFailures) : List CleanupAction :=
  match FullResetMemoryCleanup.performFullReset preserveCurrentRoom fs with
  | (out, none) => CleanupAction.emitStarted :: (out ++ [CleanupAction.emitCompleted])
  | (out, some _) => CleanupAction.emitStarted :: (out ++ [CleanupAction.logWarn])

/-! ## RoomPreserver
(src/apps/meteor/client/lib/backgroundRefresh/RoomPreserver.ts) -/

/-- A per-room view store (`RoomManager.getStore(rid)`) with the three fields
the preserver touches. -/
structure RoomStore where
  scroll : Nat
  lastTime : Nat
  atBottom : Bool
deriving DecidableEq

/-- `PreservedRoomData`: the captured snapshot. -/
structure PreservedRoomData where
  rid : String
  scroll : Nat
  lastTime : Nat
  atBottom : Bool
deriving DecidableEq

/-- The `RoomManager` collaborator surface: the currently open room id and
the per-room view stores. -/
structure RoomEnv where
  opened : Option String
  stores : List (String × RoomStore)
deriving DecidableEq

/-- `RoomManager.getStore(rid)?.update(fields)`: optional chaining — a no-op
when the room has no store. -/
def RoomEnv.updateStore (env : RoomEnv) (rid : String) (st : RoomStore) : RoomEnv :=
  match mapLookup env.stores rid with
  | none => env
  | some _ => { env with stores := mapSet env.stores rid st }

/-- `RoomPreserver.preserve()`: capture `(rid, scroll, lastTime, atBottom)`
of the open room's store; early-return (leaving any previously held snapshot
in place) when no room is open or it has no store.  Result: (held snapshot
after the call, returned value — `none` is JS `undefined`). -/
def RoomPreserver.preserve (pd : Option PreservedRoomData) (env : RoomEnv) :
    Option PreservedRoomData × Option PreservedRoomData :=
  match env.opened with
  | none => (pd, none)
  | some rid =>
      match mapLookup env.stores rid with
      | none => (pd, none)
      | some st =>
          let d : PreservedRoomData := ⟨rid, st.scroll, st.lastTime, st.atBottom⟩
          (some d, some d)

/-- `RoomPreserver.restore()`: early-return when no snapshot is held;
otherwise, only when the currently open room still equals the snapshot's
`rid`, write the stored `scroll`/`lastTime`/`atBottom` back through the
store's `update`; in every case clear the held snapshot.  The third component
is the JS return value: the method's type is `Promise<void>`, so it is always
`none` (`undefined`) — `some b` would model `return b`. -/
def RoomPreserver.restore (pd : Option PreservedRoomData) (env : RoomEnv) :
    Option PreservedRoomData × RoomEnv × Option Bool :=
  match pd with
  | none => (none, env, none)
  | some d =>
      if env.opened = some d.rid then
        (none, env.updateStore d.rid ⟨d.scroll, d.lastTime, d.atBottom⟩, none)
      else
        (none, env, none)

/-! ## Concrete fixtures used by counterexamples and witnesses -/

/-- A MessageCache with capacity 2 and the default TTL, filled to capacity:
key `a` set at time 0, key `b` set at time 1. -/
def c5Full : MessageCache :=
  ((MessageCache.mk0 2 30000).set "a" [1] "qa" 0).set "b" [2] "qb" 1

/-- A MessageCache with the default bounds (capacity 50, TTL 30000 ms)
holding one entry, key `k` created at time 0. -/
def c6One : MessageCache :=
  (MessageCache.mk0 50 30000).set "k" [1] "q" 0

/-- Distinct one-character keys for the full query-cache fixture. -/
def qcBigKey (n : Nat) : String :=
  String.mk [Char.ofNat (48 + n)]

/-- An arbitrary cached selector for the full query-cache fixture. -/
def mqD : MsgQuery :=
  ⟨"r", true, [], true⟩

/-- A query cache at the 100-entry bound. -/
def qcBig : List (String × MsgQuery) :=
  (List.range 100).map (fun n => (qcBigKey n, mqD))

/-- A query input whose fingerprint is cached in `qcOne`. -/
def qiHit : QueryInput :=
  ⟨"room1", [], false⟩

/-- A one-entry query cache holding `qiHit`'s selector. -/
def qcOne : List (String × MsgQuery) :=
  [(queryCacheKey qiHit, computeQuery qiHit)]

/-- A query input whose fingerprint is not in `qcBig`. -/
def qjFresh : QueryInput :=
  ⟨"X", [], false⟩

/-! ## Helper lemmas about the `Map` model -/

theorem mapLookup_eq_none_iff {α : Type} (l : List (String × α)) (k : String) :
    mapLookup l k = none ↔ ∀ p ∈ l, p.1 ≠ k := by
  induction l with
  | nil => simp [mapLookup]
  | cons hd tl ih =>
      obtain ⟨k', v'⟩ := hd
      by_cases h : k' = k
      · subst h
        simp [mapLookup]
      · simp [mapLookup, h, ih]

theorem mapSet_of_lookup_none {α : Type} {l : List (String × α)} {k : String} (v : α)
    (h : mapLookup l k = none) : mapSet l k v = l ++ [(k, v)] := by
  induction l with
  | nil => simp [mapSet]
  | cons hd tl ih =>
      obtain ⟨k', v'⟩ := hd
      by_cases hk : k' = k
      · subst hk
        simp [mapLookup] at h
      · simp [mapLookup, hk] at h
        simp [mapSet, hk, ih h]

theorem mapLookup_isSome_of_mem {α : Type} {l : List (String × α)} {p : String × α}
    (h : p ∈ l) : (mapLookup l p.1).isSome := by
  induction l with
  | nil => cases h
  | cons hd tl ih =>
      obtain ⟨k', v'⟩ := hd
      rcases List.mem_cons.mp h with h1 | h1
      · subst h1
        simp [mapLookup]
      · by_cases hk : k' = p.1
        · simp [mapLookup, hk]
        · simp [mapLookup, hk, ih h1]

theorem eraseKey_length_of_isSome {α : Type} {l : List (String × α)} {k : String}
    (h : (mapLookup l k).isSome) : (eraseKey l k).length + 1 = l.length := by
  induction l with
  | nil => simp [mapLookup] at h
  | cons hd tl ih =>
      obtain ⟨k', v'⟩ := hd
      by_cases hk : k' = k
      · simp [eraseKey, hk]
      · simp [mapLookup, hk] at h
        simp [eraseKey, hk, ih h]

theorem mapLookup_eraseKey_ne {α : Type} {l : List (String × α)} {k k' : String}
    (h : k ≠ k') : mapLookup (eraseKey l k') k = mapLookup l k := by
  induction l with
  | nil => simp [eraseKey]
  | cons hd tl ih =>
      obtain ⟨k0, v0⟩ := hd
      by_cases h0 : k0 = k'
      · subst h0
        simp [eraseKey, mapLookup, Ne.symm h]
      · simp [eraseKey, h0, mapLookup, ih]

theorem mapLookup_eraseKey_self_of_nodup {α : Type} {l : List (String × α)} {k : String}
    (h : (l.map Prod.fst).Nodup) : mapLookup (eraseKey l k) k = none := by
  induction l with
  | nil => simp [eraseKey, mapLookup]
  | cons hd tl ih =>
      obtain ⟨k0, v0⟩ := hd
      rw [List.map_cons, List.nodup_cons] at h
      obtain ⟨h1, h2⟩ := h
      by_cases h0 : k0 = k
      · subst h0
        simp only [eraseKey, if_pos rfl]
        refine (mapLookup_eq_none_iff tl k0).mpr ?_
        intro p hp hpk
        have hmem : p.1 ∈ List.map Prod.fst tl := List.mem_map_of_mem Prod.fst hp
        rw [hpk] at hmem
        exact h1 hmem
      · simp [eraseKey, h0, mapLookup, ih h2]

theorem mapLookup_mapSet_ne {α : Type} {l : List (String × α)} {k k' : String} (v : α)
    (h : k ≠ k') : mapLookup (mapSet l k' v) k = mapLookup l k := by
  induction l with
  | nil => simp [mapSet, mapLookup, Ne.symm h]
  | cons hd tl ih =>
      obtain ⟨k0, v0⟩ := hd
      by_cases h0 : k0 = k'
      · subst h0
        simp [mapSet, mapLookup, Ne.symm h]
      · simp [mapSet, h0, mapLookup, ih]

/-! ## Helper lemmas about the `evictLRU` scan -/

theorem lruScan_snd_le_init (l : List (String × CacheEntry)) :
    ∀ acc : String × Nat, (lruScan acc l).2 ≤ acc.2 := by
  induction l with
  | nil => intro acc; simp [lruScan]
  | cons p rest ih =>
      intro acc
      simp only [lruScan]
      by_cases h : p.2.lastFetch < acc.2
      · rw [if_pos h]
        exact le_trans (ih _) (le_of_lt h)
      · rw [if_neg h]
        exact ih acc

theorem lruScan_snd_le_mem (l : List (String × CacheEntry)) :
    ∀ (acc : String × Nat) (p : String × CacheEntry), p ∈ l →
      (lruScan acc l).2 ≤ p.2.lastFetch := by
  induction l with
  | nil => intro acc p hp; cases hp
  | cons q rest ih =>
      intro acc p hp
      simp only [lruScan]
      rcases List.mem_cons.mp hp with h1 | h1
      · subst h1
        by_cases h : p.2.lastFetch < acc.2
        · rw [if_pos h]
          exact lruScan_snd_le_init rest _
        · rw [if_neg h]
          exact le_trans (lruScan_snd_le_init rest acc) (le_of_not_lt h)
      · exact ih _ p h1

theorem lruScan_eq_init_or_mem (l : List (String × CacheEntry)) :
    ∀ acc : String × Nat, lruScan acc l = acc ∨
      ∃ p ∈ l, lruScan acc l = (p.1, p.2.lastFetch) := by
  induction l with
  | nil => intro acc; exact Or.inl rfl
  | cons q rest ih =>
      intro acc
      simp only [lruScan]
      by_cases h : q.2.lastFetch < acc.2
      · rw [if_pos h]
        rcases ih (q.1, q.2.lastFetch) with h1 | ⟨p, hp, h1⟩
        · exact Or.inr ⟨q, List.mem_cons_self _ _, h1⟩
        · exact Or.inr ⟨p, List.mem_cons_of_mem _ hp, h1⟩
      · rw [if_neg h]
        rcases ih acc with h1 | ⟨p, hp, h1⟩
        · exact Or.inl h1
        · exact Or.inr ⟨p, List.mem_cons_of_mem _ hp, h1⟩

/-! ## Helper lemmas about the ActivityTracker state machine -/

theorem ActivityTracker.step_emit_cases (s : ATState) (e : ATEvent) :
    ((ActivityTracker.step s e).2 = [] ∧
      (ActivityTracker.step s e).1.isUserActive = s.isUserActive) ∨
    ((ActivityTracker.step s e).2 = [ATEmit.inactive] ∧ s.isUserActive = true ∧
      (ActivityTracker.step s e).1.isUserActive = false) ∨
    ((ActivityTracker.step s e).2 = [ATEmit.active] ∧ s.isUserActive = false ∧
      (ActivityTracker.step s e).1.isUserActive = true) := by
  cases e with
  | activity now =>
      cases h : s.isUserActive with
      | true =>
          left
          simp [ActivityTracker.step, ActivityTracker.onActivity, h]
      | false =>
          right; right
          simp [ActivityTracker.step, ActivityTracker.onActivity,
            ActivityTracker.resetActivityTracking, h]
  | visibilityHidden now =>
      cases h : s.isUserActive with
      | true =>
          right; left
          simp [ActivityTracker.step, ActivityTracker.onUserInactive, h]
      | false =>
          left
          simp [ActivityTracker.step, ActivityTracker.onUserInactive, h]
  | blurCheck now =>
      by_cases hc : 1000 < now - s.lastActivity
      · cases h : s.isUserActive with
        | true =>
            right; left
            simp [ActivityTracker.step, hc, ActivityTracker.onUserInactive, h]
        | false =>
            left
            simp [ActivityTracker.step, hc, ActivityTracker.onUserInactive, h]
      · left
        simp [ActivityTracker.step, hc]
  | timerFire now =>
      cases ht : s.inactiveTimer with
      | none =>
          left
          simp [ActivityTracker.step, ht]
      | some t =>
          by_cases he : t = now
          · cases h : s.isUserActive with
            | true =>
                right; left
                simp [ActivityTracker.step, ht, he, ActivityTracker.onUserInactive, h]
            | false =>
                left
                simp [ActivityTracker.step, ht, he, ActivityTracker.onUserInactive, h]
          · left
            simp [ActivityTracker.step, ht, he]
  | updateInactiveTime now t =>
      left
      simp [ActivityTracker.step, ActivityTracker.resetActivityTracking]

theorem ActivityTracker.run_altOk (es : List ATEvent) :
    ∀ s : ATState, altOk s.isUserActive (ActivityTracker.run s es).2 := by
  induction es with
  | nil => intro s; trivial
  | cons e rest ih =>
      intro s
      have h := ActivityTracker.step_emit_cases s e
      simp only [ActivityTracker.run]
      rcases h with ⟨h1, h2⟩ | ⟨h1, h2, h3⟩ | ⟨h1, h2, h3⟩
      · rw [h1, List.nil_append, ← h2]
        exact ih (ActivityTracker.step s e).1
      · rw [h1, h2, List.singleton_append]
        refine ⟨by simp, ?_⟩
        have hr := ih (ActivityTracker.step s e).1
        rw [h3] at hr
        simpa [altOk] using hr
      · rw [h1, h2, List.singleton_append]
        refine ⟨by simp, ?_⟩
        have hr := ih (ActivityTracker.step s e).1
        rw [h3] at hr
        simpa [altOk] using hr

/-! ## Helper lemmas about the query-selector cache -/

theorem eraseKey_cons_self {α : Type} (k : String) (v : α) (t : List (String × α)) :
    eraseKey ((k, v) :: t) k = t := by
  simp [eraseKey]

theorem queryLookup_length_le {qc : List (String × MsgQuery)} (i : QueryInput)
    (h : qc.length ≤ 100) : ((queryLookup qc i).2.1).length ≤ 100 := by
  cases hl : mapLookup qc (queryCacheKey i) with
  | some v => simpa [queryLookup, hl] using h
  | none =>
      have hset := mapSet_of_lookup_none (computeQuery i) hl
      cases qc with
      | nil =>
          simp [queryLookup, hl, mapSet]
      | cons p tl =>
          obtain ⟨pk, pv⟩ := p
          rw [List.cons_append] at hset
          by_cases hb :
              100 < (mapSet ((pk, pv) :: tl) (queryCacheKey i) (computeQuery i)).length
          · simp only [queryLookup, hl, hset, List.cons_append]
            rw [hset] at hb
            simp only [if_pos hb, eraseKey_cons_self]
            simp at h ⊢
            omega
          · simp only [queryLookup, hl]
            rw [if_neg hb, hset]
            rw [hset] at hb
            simp at hb ⊢
            omega

theorem runQueries_length_le (l : List QueryInput) : (runQueries l).length ≤ 100 := by
  suffices h : ∀ qc : List (String × MsgQuery), qc.length ≤ 100 →
      (l.foldl (fun qc i => (queryLookup qc i).2.1) qc).length ≤ 100 by
    exact h [] (by simp)
  induction l with
  | nil => intro qc hqc; simpa using hqc
  | cons i rest ih =>
      intro qc hqc
      simpa [List.foldl] using ih _ (queryLookup_length_le i hqc)

/-! ## Claim theorems -/

/-- C1 (counterexample): the claim that `inactive` is emitted only when at
least `inactiveTime` has elapsed since the last qualifying signal is false.
With `inactiveTime = 10` and construction at time 0, a qualifying activity
signal at time 9 (within the threshold) does not reschedule the pending
timer; when that timer fires at time 10 the tracker still emits `inactive`,
only 1 time unit after the last qualifying signal. -/
theorem activityTracker_inactive_within_threshold_cex :
    (ActivityTracker.run (ActivityTracker.init 0 10)
        [ATEvent.activity 9, ATEvent.timerFire 10]).2 = [ATEmit.inactive] ∧
    10 - (ActivityTracker.run (ActivityTracker.init 0 10) [ATEvent.activity 9]).1.lastActivity
        < (ActivityTracker.init 0 10).inactiveTime := by decide

/-- C1 (amended): an `inactive` emission at a timer firing requires only that
the tracker is in the Active state when the pending timer fires, regardless
of how recently the last qualifying signal arrived: a qualifying activity
signal received while already Active updates `lastActivity` but leaves the
pending timer unchanged, so the timer still fires at its originally scheduled
time. -/
theorem activityTracker_inactive_requires_active_state (s : ATState) (now : Nat)
    (hact : s.isUserActive = true) :
    (ActivityTracker.step s (ATEvent.activity now)).1.inactiveTimer = s.inactiveTimer ∧
    (ActivityTracker.step s (ATEvent.activity now)).1.lastActivity = now ∧
    ((ActivityTracker.step s (ATEvent.timerFire now)).2 = [ATEmit.inactive] ↔
      s.inactiveTimer = some now) := by
  refine ⟨?_, ?_, ?_⟩
  · simp [ActivityTracker.step, ActivityTracker.onActivity, hact]
  · simp [ActivityTracker.step, ActivityTracker.onActivity, hact]
  · constructor
    · intro h
      cases ht : s.inactiveTimer with
      | none => simp [ActivityTracker.step, ht] at h
      | some t =>
          by_cases he : t = now
          · rw [he]
          · simp [ActivityTracker.step, ht, he] at h
    · intro h
      simp [ActivityTracker.step, h, ActivityTracker.onUserInactive, hact]

/-- C1 (witness for the amended theorem): concrete instance with the tracker
Active, a pending timer at 10, an activity signal at 9 and the firing
at 10. -/
theorem activityTracker_inactive_requires_active_state_witness :
    ((ActivityTracker.step (ActivityTracker.init 0 10) (ATEvent.activity 9)).1.inactiveTimer =
        (ActivityTracker.init 0 10).inactiveTimer) ∧
    ((ActivityTracker.step (ActivityTracker.init 0 10) (ATEvent.activity 9)).1.lastActivity = 9) ∧
    ((ActivityTracker.step (ActivityTracker.init 0 10) (ATEvent.timerFire 9)).2 =
        [ATEmit.inactive] ↔ (ActivityTracker.init 0 10).inactiveTimer = some 9) :=
  activityTracker_inactive_requires_active_state (ActivityTracker.init 0 10) 9 (by decide)

/-- C4 (counterexample): the claim that `updateInactiveTime(ms)` reschedules
the pending timer to fire at `lastActivity + ms` is false.  With the tracker
constructed at time 0 (`lastActivity = 0`) and `updateInactiveTime 20` called
at time 5, the new timer fires at 25 = callTime + 20, not at
`lastActivity + 20 = 20`. -/
theorem updateInactiveTime_reschedules_from_now_cex :
    (ActivityTracker.step (ActivityTracker.init 0 10)
        (ATEvent.updateInactiveTime 5 20)).1.inactiveTimer = some 25 ∧
    (ActivityTracker.step (ActivityTracker.init 0 10)
        (ATEvent.updateInactiveTime 5 20)).1.inactiveTimer ≠
      some ((ActivityTracker.step (ActivityTracker.init 0 10)
        (ATEvent.updateInactiveTime 5 20)).1.lastActivity + 20) := by decide

/-- C4 (amended): `updateInactiveTime(t)` cancels the pending timer and
schedules a new one measured from the call time: it fires at `now + t`,
resetting the countdown's start point to the call time; `lastActivity` is
neither consulted nor modified. -/
theorem updateInactiveTime_schedules_from_call_time (s : ATState) (now t : Nat) :
    (ActivityTracker.step s (ATEvent.updateInactiveTime now t)).1 =
      { s with inactiveTime := t, inactiveTimer := some (now + t) } := by
  simp [ActivityTracker.step, ActivityTracker.resetActivityTracking]

/-- C10 (confirmed): over every sequence of stimuli (activity signals, the
`visibilitychange`-hidden handler, the deferred blur check, timer firings and
threshold updates), the tracker's emission trace strictly alternates starting
from the Active state: the first emission (if any) is `inactive`, and no two
`inactive` (or two `active`) emissions are adjacent — in particular `active`
is never emitted while already Active, and two `inactive` emissions always
have an intervening `active`. -/
theorem activityTracker_emissions_alternate (n0 T : Nat) (es : List ATEvent) :
    altOk true (ActivityTracker.run (ActivityTracker.init n0 T) es).2 :=
  ActivityTracker.run_altOk es (ActivityTracker.init n0 T)

/-- C2 (counterexample): the claim that a cleanup tick with
`preserveCurrentRoom` enabled captures the open room's state before the steps
and restores it afterwards is false: with `preserveCurrentRoom = true` (and
no step failing), the pass issues no snapshot capture and no snapshot
restore at all. -/
theorem performRefresh_no_snapshot_capture_cex :
    CleanupAction.snapshotCapture ∉
      SimpleBackgroundRefreshManager.performRefresh true ⟨false, false, false, false⟩ ∧
    CleanupAction.snapshotRestore ∉
      SimpleBackgroundRefreshManager.performRefresh true ⟨false, false, false, false⟩ := by
  decide

/-- C2 (amended): on every cleanup tick, regardless of `preserveCurrentRoom`
and of which steps fail, the orchestrator runs only the safe-cleanup step
pipeline between `refresh/started` and `refresh/completed`; it never asks the
snapshot component to capture or restore (the full-reset path that did so is
emergency-disabled, and `performFullReset` ignores its `preserveCurrentRoom`
argument entirely). -/
theorem performRefresh_only_safe_cleanup (p : Bool) (fs : StepFailures) :
    CleanupAction.snapshotCapture ∉ SimpleBackgroundRefreshManager.performRefresh p fs ∧
    CleanupAction.snapshotRestore ∉ SimpleBackgroundRefreshManager.performRefresh p fs ∧
    SimpleBackgroundRefreshManager.performRefresh p fs =
      SimpleBackgroundRefreshManager.performRefresh true fs := by
  obtain ⟨a, b, c, d⟩ := fs
  cases p <;> cases a <;> cases b <;> cases c <;> cases d <;> decide

/-- C3 (confirmed): for every cleanup pass and every combination of
throwing steps, `refresh/started` is the first action, `refresh/completed`
is the last action and occurs exactly once, and every one of the four
cleanup steps is executed — steps after a failing step included (each step's
collaborator call is guarded by its own try/catch, so no failure stops the
pipeline or suppresses the completion event). -/
theorem performRefresh_started_completed (p : Bool) (fs : StepFailures) :
    (SimpleBackgroundRefreshManager.performRefresh p fs).head? =
        some CleanupAction.emitStarted ∧
    (SimpleBackgroundRefreshManager.performRefresh p fs).getLast? =
        some CleanupAction.emitCompleted ∧
    (SimpleBackgroundRefreshManager.performRefresh p fs).count
        CleanupAction.emitCompleted = 1 ∧
    CleanupAction.stepVideoConf ∈ SimpleBackgroundRefreshManager.performRefresh p fs ∧
    CleanupAction.stepVoIP ∈ SimpleBackgroundRefreshManager.performRefresh p fs ∧
    CleanupAction.stepDOM ∈ SimpleBackgroundRefreshManager.performRefresh p fs ∧
    CleanupAction.stepMicrotasks ∈ SimpleBackgroundRefreshManager.performRefresh p fs := by
  obtain ⟨a, b, c, d⟩ := fs
  cases p <;> cases a <;> cases b <;> cases c <;> cases d <;> decide

/-- C7 (counterexample): the claim that `restore` returns `false` when the
open room differs from the snapshot's room id is false: the method's type is
`Promise<void>`, so at a concrete mismatched input (snapshot for room A,
room B open) the returned value is `undefined` (`none`), not `false` — the
room view store is indeed left unchanged, but no failure is reported. -/
theorem roomPreserver_restore_returns_no_bool_cex :
    (RoomPreserver.restore (some ⟨"A", 7, 9, false⟩)
        ⟨some "B", [("A", ⟨3, 5, false⟩), ("B", ⟨0, 0, true⟩)]⟩).2.2 = none ∧
    (RoomPreserver.restore (some ⟨"A", 7, 9, false⟩)
        ⟨some "B", [("A", ⟨3, 5, false⟩), ("B", ⟨0, 0, true⟩)]⟩).2.2 ≠ some false ∧
    (RoomPreserver.restore (some ⟨"A", 7, 9, false⟩)
        ⟨some "B", [("A", ⟨3, 5, false⟩), ("B", ⟨0, 0, true⟩)]⟩).2.1 =
      ⟨some "B", [("A", ⟨3, 5, false⟩), ("B", ⟨0, 0, true⟩)]⟩ := by decide

/-- C7 (amended): `restore` leaves the room view stores unchanged when the
currently open room id differs from the captured snapshot's room id, and
writes the stored scroll/lastTime/atBottom back to that room's store when it
still matches; in both cases the held snapshot is cleared and the call
returns no value (`undefined`) — there is no boolean success report. -/
theorem roomPreserver_restore_noop_on_mismatch (d : PreservedRoomData) (env : RoomEnv) :
    (env.opened ≠ some d.rid →
       RoomPreserver.restore (some d) env = (none, env, none)) ∧
    (env.opened = some d.rid →
       RoomPreserver.restore (some d) env =
         (none, env.updateStore d.rid ⟨d.scroll, d.lastTime, d.atBottom⟩, none)) := by
  constructor
  · intro h
    simp [RoomPreserver.restore, h]
  · intro h
    simp [RoomPreserver.restore, h]

/-- C7 (witness for the amended theorem): both branches at concrete inputs —
a mismatched restore (room B open, snapshot for room A) leaves everything
unchanged, and a matched restore writes the snapshot back into room A's
store. -/
theorem roomPreserver_restore_noop_on_mismatch_witness :
    (RoomPreserver.restore (some ⟨"A", 7, 9, false⟩) ⟨some "B", [("A", ⟨3, 5, false⟩)]⟩ =
      (none, ⟨some "B", [("A", ⟨3, 5, false⟩)]⟩, none)) ∧
    (RoomPreserver.restore (some ⟨"A", 7, 9, false⟩) ⟨some "A", [("A", ⟨3, 5, false⟩)]⟩ =
      (none, RoomEnv.updateStore ⟨some "A", [("A", ⟨3, 5, false⟩)]⟩ "A" ⟨7, 9, false⟩, none)) :=
  ⟨(roomPreserver_restore_noop_on_mismatch ⟨"A", 7, 9, false⟩
      ⟨some "B", [("A", ⟨3, 5, false⟩)]⟩).1 (by decide),
   (roomPreserver_restore_noop_on_mismatch ⟨"A", 7, 9, false⟩
      ⟨some "A", [("A", ⟨3, 5, false⟩)]⟩).2 (by decide)⟩

/-- C5 (counterexample): the claim that `set` with an existing key does not
evict is false.  `c5Full` is at capacity (2 entries, keys `a` and `b`);
calling `set` again with the existing key `a` at time 2 still evicts the
least-recently-accessed entry (which is `a` itself) and increments
`evictions` from 0 to 1. -/
theorem messageCache_set_existing_key_evicts_cex :
    mapLookup c5Full.cache "a" ≠ none ∧
    c5Full.size = c5Full.maxSize ∧
    c5Full.stats.evictions = 0 ∧
    (c5Full.set "a" [3] "qa" 2).stats.evictions = 1 := by decide

/-- C5 (amended): whenever a `set` call finds the cache at capacity — whether
or not the key already exists — an eviction occurs, provided at least one
entry was last accessed strictly before the call time and no key is the empty
string (the scan starts from `('', now)` and only replaces on strictly
smaller `lastFetch`, and an empty `oldestKey` is falsy): `evictions` is
incremented and the entry with the least `lastFetch` among all entries is
removed (unless its key is the very key being re-inserted, which is then
overwritten); when the inserted key is new, the resulting size equals the
capacity. -/
theorem messageCache_set_at_capacity_evicts_lru
    (c : MessageCache) (k : String) (m : List Nat) (q : String) (now : Nat)
    (hfull : c.cache.length = c.maxSize)
    (hmin : ∃ p ∈ c.cache, p.2.lastFetch < now)
    (hkeys : ∀ p ∈ c.cache, p.1 ≠ "")
    (hnodup : (c.cache.map Prod.fst).Nodup) :
    (c.set k m q now).stats.evictions = c.stats.evictions + 1 ∧
    (mapLookup c.cache k = none → (c.set k m q now).size = c.maxSize) ∧
    ∃ p ∈ c.cache, (∀ p' ∈ c.cache, p.2.lastFetch ≤ p'.2.lastFetch) ∧
      (p.1 ≠ k → mapLookup (c.set k m q now).cache p.1 = none) := by
  obtain ⟨pm, hpm, hpmlt⟩ := hmin
  have hsle : (lruScan ("", now) c.cache).2 ≤ pm.2.lastFetch :=
    lruScan_snd_le_mem c.cache _ pm hpm
  have hslt : (lruScan ("", now) c.cache).2 < now := lt_of_le_of_lt hsle hpmlt
  obtain ⟨p0, hp0, hr⟩ :
      ∃ p ∈ c.cache, lruScan ("", now) c.cache = (p.1, p.2.lastFetch) := by
    rcases lruScan_eq_init_or_mem c.cache ("", now) with h | h
    · rw [h] at hslt
      exact absurd hslt (lt_irrefl now)
    · exact h
  have hkey0 : p0.1 ≠ "" := hkeys p0 hp0
  have hcond : c.maxSize ≤ c.cache.length := le_of_eq hfull.symm
  have hev : c.evictLRU now =
      { c with cache := eraseKey c.cache p0.1,
               stats := { c.stats with evictions := c.stats.evictions + 1 } } := by
    simp [MessageCache.evictLRU, hr, hkey0]
  have hsetdef : c.set k m q now =
      { cache := mapSet (eraseKey c.cache p0.1) k ⟨m, now, now, q⟩,
        maxSize := c.maxSize, ttl := c.ttl,
        stats := { c.stats with evictions := c.stats.evictions + 1 } } := by
    simp only [MessageCache.set, if_pos hcond, hev]
  have herlen : (eraseKey c.cache p0.1).length + 1 = c.cache.length :=
    eraseKey_length_of_isSome (mapLookup_isSome_of_mem hp0)
  refine ⟨?_, ?_, ?_⟩
  · rw [hsetdef]
  · intro hfresh
    have hkne : k ≠ p0.1 := by
      intro he
      exact (mapLookup_eq_none_iff c.cache k).mp hfresh p0 hp0 he.symm
    have hfresh2 : mapLookup (eraseKey c.cache p0.1) k = none := by
      rw [mapLookup_eraseKey_ne hkne]
      exact hfresh
    rw [hsetdef]
    show (mapSet (eraseKey c.cache p0.1) k ⟨m, now, now, q⟩).length = c.maxSize
    rw [mapSet_of_lookup_none _ hfresh2, List.length_append]
    simpa [herlen] using hfull
  · refine ⟨p0, hp0, ?_, ?_⟩
    · intro p' hp'
      have := lruScan_snd_le_mem c.cache ("", now) p' hp'
      rw [hr] at this
      exact this
    · intro hne
      rw [hsetdef]
      show mapLookup (mapSet (eraseKey c.cache p0.1) k ⟨m, now, now, q⟩) p0.1 = none
      rw [mapLookup_mapSet_ne _ hne]
      exact mapLookup_eraseKey_self_of_nodup hnodup

/-- C5 (witness for the amended theorem): `c5Full` at capacity, in both
modes.  A fresh key `c` inserted at time 2 evicts the least-recently-accessed
entry (key `a`, absent afterwards) and the size stays at the capacity 2; a
`set` with the existing key `b` at time 2 also evicts the
least-recently-accessed entry `a`. -/
theorem messageCache_set_at_capacity_evicts_lru_witness :
    ((c5Full.set "c" [3] "qc" 2).stats.evictions = c5Full.stats.evictions + 1 ∧
     (mapLookup c5Full.cache "c" = none → (c5Full.set "c" [3] "qc" 2).size = c5Full.maxSize) ∧
     ∃ p ∈ c5Full.cache, (∀ p' ∈ c5Full.cache, p.2.lastFetch ≤ p'.2.lastFetch) ∧
       (p.1 ≠ "c" → mapLookup ((c5Full.set "c" [3] "qc" 2).cache) p.1 = none)) ∧
    ((c5Full.set "b" [4] "qb" 2).stats.evictions = c5Full.stats.evictions + 1 ∧
     (mapLookup c5Full.cache "b" = none → (c5Full.set "b" [4] "qb" 2).size = c5Full.maxSize) ∧
     ∃ p ∈ c5Full.cache, (∀ p' ∈ c5Full.cache, p.2.lastFetch ≤ p'.2.lastFetch) ∧
       (p.1 ≠ "b" → mapLookup ((c5Full.set "b" [4] "qb" 2).cache) p.1 = none)) :=
  ⟨messageCache_set_at_capacity_evicts_lru c5Full "c" [3] "qc" 2 (by decide)
     (by decide) (by decide) (by decide),
   messageCache_set_at_capacity_evicts_lru c5Full "b" [4] "qb" 2 (by decide)
     (by decide) (by decide) (by decide)⟩

theorem getLastQ_append_single {α : Type} (l : List α) (x : α) :
    (l ++ [x]).getLast? = some x := by
  rw [List.getLast?_append_cons]
  rfl

/-- C6 (counterexample): the claim that `get` returns `None` as soon as
`now >= createdAt + ttl` is false at the boundary.  `c6One` holds an entry
created at time 0 with `ttl = 30000`; `get` at exactly `now = 30000`
(`now = createdAt + ttl`) still returns the payload as a hit — the code's
expiry test is strict (`now - timestamp > ttl`) — and the entry is not
deleted. -/
theorem messageCache_get_at_exact_ttl_hit_cex :
    (c6One.get "k" 30000).1 = some [1] ∧
    (c6One.get "k" 30000).2.stats.hits = 1 ∧
    (c6One.get "k" 30000).2.stats.misses = 0 ∧
    (c6One.get "k" 30000).2.size = 1 := by decide

/-- C6 (amended): for a present entry, `get` returns `None` exactly once
`now > createdAt + ttl` holds strictly (at `now = createdAt + ttl` the entry
is still served), increments `misses` and deletes the entry on that same
call, so the reported size decreases by one; for a present entry within the
TTL it returns the stored payload, increments `hits`, keeps the size and
moves the entry to the most-recent end with `lastFetch = now`. -/
theorem messageCache_get_ttl_strict
    (c : MessageCache) (k : String) (now : Nat) (e : CacheEntry)
    (hlook : mapLookup c.cache k = some e) :
    (c.ttl < now - e.timestamp →
       (c.get k now).1 = none ∧
       (c.get k now).2.stats.misses = c.stats.misses + 1 ∧
       (c.get k now).2.size + 1 = c.size) ∧
    (now - e.timestamp ≤ c.ttl →
       (c.get k now).1 = some e.messages ∧
       (c.get k now).2.stats.hits = c.stats.hits + 1 ∧
       (c.get k now).2.size = c.size ∧
       (c.get k now).2.cache.getLast? = some (k, { e with lastFetch := now })) := by
  have hsome : (mapLookup c.cache k).isSome := by rw [hlook]; rfl
  have hlen := eraseKey_length_of_isSome hsome
  constructor
  · intro hexp
    simp [MessageCache.get, hlook, hexp, MessageCache.size, hlen]
  · intro hok
    have hnexp : ¬ c.ttl < now - e.timestamp := not_lt_of_ge hok
    simp [MessageCache.get, hlook, hnexp, MessageCache.size, hlen,
      getLastQ_append_single]

/-- C6 (witness for the amended theorem): `c6One`'s entry (created at 0,
TTL 30000) is expired at `now = 30001` — returned `None`, miss counted,
size down by one — and still a hit at the boundary `now = 30000`. -/
theorem messageCache_get_ttl_strict_witness :
    ((c6One.get "k" 30001).1 = none ∧
     (c6One.get "k" 30001).2.stats.misses = c6One.stats.misses + 1 ∧
     (c6One.get "k" 30001).2.size + 1 = c6One.size) ∧
    ((c6One.get "k" 30000).1 = some [1] ∧
     (c6One.get "k" 30000).2.stats.hits = c6One.stats.hits + 1 ∧
     (c6One.get "k" 30000).2.size = c6One.size ∧
     (c6One.get "k" 30000).2.cache.getLast? = some ("k", ⟨[1], 0, 30000, "q"⟩)) :=
  ⟨(messageCache_get_ttl_strict c6One "k" 30001 ⟨[1], 0, 0, "q"⟩ (by decide)).1 (by decide),
   (messageCache_get_ttl_strict c6One "k" 30000 ⟨[1], 0, 0, "q"⟩ (by decide)).2 (by decide)⟩

/-- C8 (confirmed): for every cache state and room id, `invalidateRoom`
removes exactly the entries whose key contains the room id as a substring —
after the call, looking any key up yields `none` when the key contains the
room id and the previous result otherwise — and leaves the stats counters
and configured bounds untouched, regardless of insertion order. -/
theorem messageCache_invalidateRoom_exact (c : MessageCache) (rid k : String) :
    mapLookup (c.invalidateRoom rid).cache k =
      (if strIncludes k rid then none else mapLookup c.cache k) ∧
    (c.invalidateRoom rid).stats = c.stats ∧
    (c.invalidateRoom rid).maxSize = c.maxSize ∧
    (c.invalidateRoom rid).ttl = c.ttl := by
  refine ⟨?_, rfl, rfl, rfl⟩
  show mapLookup (invalidateLoop c.cache rid) k = _
  induction c.cache with
  | nil =>
      by_cases h : strIncludes k rid = true <;> simp [invalidateLoop, mapLookup, h]
  | cons hd tl ih =>
      obtain ⟨k0, e0⟩ := hd
      by_cases h0 : strIncludes k0 rid = true
      · by_cases hk : k0 = k
        · subst hk
          simp [invalidateLoop, h0, mapLookup, ih]
        · simp only [invalidateLoop, if_pos h0]
          rw [ih]
          by_cases h : strIncludes k rid = true <;> simp [mapLookup, h, hk]
      · by_cases hk : k0 = k
        · subst hk
          simp [invalidateLoop, h0, mapLookup]
        · simp only [invalidateLoop, if_neg h0]
          rw [show mapLookup ((k0, e0) :: invalidateLoop tl rid) k =
                mapLookup (invalidateLoop tl rid) k by simp [mapLookup, hk]]
          rw [ih]
          by_cases h : strIncludes k rid = true <;> simp [mapLookup, h, hk]

/-- C9 (confirmed): the query-selector cache holds at most 100 entries after
any sequence of lookups starting from the empty module-level `Map`; a hit
returns the cached selector with the cache unchanged and without recomputing;
and when a miss at the 100-entry bound inserts a new fingerprint, the entry
removed is the first key in iteration order — the oldest-inserted one (FIFO),
not the least-recently-used one. -/
theorem queryCache_bound_fifo_hit
    (l : List QueryInput) (qc qc2 : List (String × MsgQuery)) (i j : QueryInput)
    (v : MsgQuery)
    (hhit : mapLookup qc (queryCacheKey i) = some v)
    (hlen : qc2.length = 100)
    (hfresh : mapLookup qc2 (queryCacheKey j) = none) :
    (runQueries l).length ≤ 100 ∧
    queryLookup qc i = (v, qc, false) ∧
    (queryLookup qc2 j).2.1 =
      qc2.tail ++ [(queryCacheKey j, computeQuery j)] := by
  refine ⟨runQueries_length_le l, ?_, ?_⟩
  · simp [queryLookup, hhit]
  · obtain ⟨p, t, rfl⟩ : ∃ p t, qc2 = p :: t := by
      cases qc2 with
      | nil => simp at hlen
      | cons p t => exact ⟨p, t, rfl⟩
    obtain ⟨pk, pv⟩ := p
    have hset := mapSet_of_lookup_none (computeQuery j) hfresh
    rw [List.cons_append] at hset
    have hcond :
        100 < ((pk, pv) :: (t ++ [(queryCacheKey j, computeQuery j)])).length := by
      simp at hlen ⊢
      omega
    simp only [queryLookup, hfresh, hset, if_pos hcond, eraseKey_cons_self]
    simp

/-- C9 (witness): the empty render history respects the bound; a hit on the
one-entry cache `qcOne` returns the cached selector without recomputing; a
miss on the full 100-entry cache `qcBig` drops exactly the oldest-inserted
(first) entry and appends the new fingerprint. -/
theorem queryCache_bound_fifo_hit_witness :
    (runQueries []).length ≤ 100 ∧
    queryLookup qcOne qiHit = (computeQuery qiHit, qcOne, false) ∧
    (queryLookup qcBig qjFresh).2.1 =
      qcBig.tail ++ [(queryCacheKey qjFresh, computeQuery qjFresh)] :=
  queryCache_bound_fifo_hit [] qcOne qcBig qiHit qjFresh (computeQuery qiHit)
    (by decide) (by decide) (by decide)
